import Mathlib

/-!
Shallow embedding of the WiMarka annotation-tool backend
(`tools/wimarka-annotate/backend/main.py` with the request/response schemas
of `schemas.py`) and proofs about its workflow and persistence behaviour.

The database is modelled as explicit lists of rows, one list per table,
ordered by insertion (which coincides with primary-key order, since every
table uses an autoincrementing integer key); an SQLAlchemy `.first()` call
on an unordered query is `List.find?` on that list.  Each HTTP handler
becomes a pure function from the request data and the current database
state; `raise HTTPException` becomes an `Except.error` carrying the status
code and the detail message.  A handler may call `db.commit()` several
times, so instead of returning just a final state every mutating handler
returns the list of states it committed, in order (`OpResult.commits`);
the state after the handler is the last committed one, and the claim that
a handler is atomic is the claim that this list never has more than one
element.  Password hashing is an external primitive (out of scope per the
specification), modelled by an abstract injective function on strings.
Python truthiness on optional strings (`None` and `""` are falsy) and on
lists (`[]` is falsy) is modelled explicitly where the code relies on it.
-/

/-- A row of the `users` table. -/
structure User where
  id : Nat
  email : String
  username : String
  first_name : String
  last_name : String
  preferred_language : String
  hashed_password : String
  is_admin : Bool
  is_evaluator : Bool
  is_active : Bool
  guidelines_seen : Bool
deriving Repr, DecidableEq

/-- A row of the `user_languages` table. -/
structure UserLanguage where
  id : Nat
  user_id : Nat
  language : String
deriving Repr, DecidableEq

/-- A row of the `sentences` table. -/
structure Sentence where
  id : Nat
  source_text : String
  machine_translation : String
  source_language : String
  target_language : String
  domain : Option String
  is_active : Bool
deriving Repr, DecidableEq

/-- A row of the `annotations` table (the Python model class `Annotation`). -/
structure Annot where
  id : Nat
  sentence_id : Nat
  annotator_id : Nat
  fluency_score : Option Int
  adequacy_score : Option Int
  overall_quality : Option Int
  errors_found : Option String
  suggested_correction : Option String
  comments : Option String
  final_form : Option String
  time_spent_seconds : Option Int
  annotation_status : String
deriving Repr, DecidableEq

/-- A row of the `text_highlights` table. -/
structure TextHighlight where
  id : Nat
  annotation_id : Nat
  highlighted_text : String
  start_index : Int
  end_index : Int
  text_type : String
  comment : String
deriving Repr, DecidableEq

/-- A row of the `evaluations` table. -/
structure Evaluation where
  id : Nat
  annotation_id : Nat
  evaluator_id : Nat
  annotation_quality_score : Option Int
  accuracy_score : Option Int
  completeness_score : Option Int
  overall_evaluation_score : Option Int
  feedback : Option String
  evaluation_notes : Option String
  time_spent_seconds : Option Int
  evaluation_status : String
deriving Repr, DecidableEq

/-- The whole database: one insertion-ordered list per table plus the
autoincrement counter of each table's primary key. -/
structure DB where
  users : List User
  user_languages : List UserLanguage
  sentences : List Sentence
  annots : List Annot
  highlights : List TextHighlight
  evaluations : List Evaluation
  next_user_id : Nat
  next_user_language_id : Nat
  next_sentence_id : Nat
  next_annot_id : Nat
  next_highlight_id : Nat
  next_evaluation_id : Nat
deriving Repr, DecidableEq

/-- An `HTTPException`: status code plus detail message. -/
structure HErr where
  status_code : Nat
  detail : String
deriving Repr, DecidableEq

/-- Outcome of one handler invocation: the response (or error) together
with the list of database states committed by the handler, in order. -/
structure OpResult (α : Type) where
  res : Except HErr α
  commits : List DB
deriving Repr

/-- The database state after a handler ran: the last committed state, or
the initial state when the handler committed nothing. -/
def OpResult.final {α : Type} (db : DB) (r : OpResult α) : DB :=
  (r.commits.getLast?).getD db

/-- Python truthiness of an optional string: `None` and `""` are falsy. -/
def pyTruthyStr (s : Option String) : Bool :=
  match s with
  | none => false
  | some t => !(t == "")

/-- Abstract model of the external password-hashing primitive
(`auth.get_password_hash`); hashing itself is out of scope. -/
def get_password_hash (plain : String) : String :=
  "bcrypt$" ++ plain

/-- Whether an annotation row by annotator `uid` for sentence `sid`
exists: the `EXISTS` subquery of `get_next_sentence` and the duplicate
pre-check of `create_annotation`. -/
def hasAnnotBy (db : DB) (sid uid : Nat) : Bool :=
  (db.annots.find? (fun a => a.sentence_id == sid && a.annotator_id == uid)).isSome

/-- The row filter of `get_next_sentence` / `get_unannotated_sentences`:
active, target language equals the user's preferred language, and not yet
annotated by this user. -/
def nextSentenceFilter (db : DB) (current_user : User) (s : Sentence) : Bool :=
  s.is_active && s.target_language == current_user.preferred_language
    && !(hasAnnotBy db s.id current_user.id)

/-- GET `/api/sentences/next` (`get_next_sentence` in `main.py`): the
first matching row of an unordered query, i.e. `List.find?`. -/
def get_next_sentence (db : DB) (current_user : User) : Option Sentence :=
  db.sentences.find? (nextSentenceFilter db current_user)

/-- GET `/api/sentences/unannotated` (`get_unannotated_sentences`): the
same filter, paginated with OFFSET `skip` and LIMIT `limit`. -/
def get_unannotated_sentences (db : DB) (current_user : User)
    (skip limit : Nat) : List Sentence :=
  (((db.sentences.filter (nextSentenceFilter db current_user)).drop skip).take limit)

/-! ## Request schemas (`schemas.py`) -/

/-- `UserCreate`: the registration payload.  `languages` collapses
pydantic's `Optional[List[str]] = []` to a plain list, since the handler
only tests its truthiness (`None` and `[]` behave identically) and never
iterates a `None`. -/
structure UserCreate where
  email : String
  username : String
  first_name : String
  last_name : String
  preferred_language : Option String
  languages : List String
  password : String
  is_evaluator : Bool
deriving Repr, DecidableEq

/-- `SentenceCreate`. -/
structure SentenceCreate where
  source_text : String
  machine_translation : String
  source_language : String
  target_language : String
  domain : Option String
deriving Repr, DecidableEq

/-- `TextHighlightCreate`. -/
structure TextHighlightCreate where
  highlighted_text : String
  start_index : Int
  end_index : Int
  text_type : String
  comment : String
deriving Repr, DecidableEq

/-- `AnnotationCreate` of `schemas.py`.  `highlights` collapses
`Optional[List[...]] = []` to a plain list for the same reason as
`UserCreate.languages`. -/
structure AnnotCreate where
  fluency_score : Option Int
  adequacy_score : Option Int
  overall_quality : Option Int
  errors_found : Option String
  suggested_correction : Option String
  comments : Option String
  final_form : Option String
  time_spent_seconds : Option Int
  sentence_id : Nat
  highlights : List TextHighlightCreate
deriving Repr, DecidableEq

/-- `LegacyAnnotationCreate`: the annotation payload without highlights. -/
structure LegacyAnnotCreate where
  fluency_score : Option Int
  adequacy_score : Option Int
  overall_quality : Option Int
  errors_found : Option String
  suggested_correction : Option String
  comments : Option String
  final_form : Option String
  time_spent_seconds : Option Int
  sentence_id : Nat
deriving Repr, DecidableEq

/-- `AnnotationUpdate`.  A field holding `some v` was present in the
payload (pydantic `exclude_unset` keeps it) and sets the column to `v`;
`none` means the field was omitted and the column keeps its value. -/
structure AnnotUpdate where
  fluency_score : Option Int
  adequacy_score : Option Int
  overall_quality : Option Int
  errors_found : Option String
  suggested_correction : Option String
  comments : Option String
  final_form : Option String
  time_spent_seconds : Option Int
  annotation_status : Option String
  highlights : Option (List TextHighlightCreate)
deriving Repr, DecidableEq

/-- `EvaluationCreate`. -/
structure EvaluationCreate where
  annotation_quality_score : Option Int
  accuracy_score : Option Int
  completeness_score : Option Int
  overall_evaluation_score : Option Int
  feedback : Option String
  evaluation_notes : Option String
  time_spent_seconds : Option Int
  annotation_id : Nat
deriving Repr, DecidableEq

/-- `EvaluationUpdate`; same `exclude_unset` convention as `AnnotUpdate`. -/
structure EvaluationUpdate where
  annotation_quality_score : Option Int
  accuracy_score : Option Int
  completeness_score : Option Int
  overall_evaluation_score : Option Int
  feedback : Option String
  evaluation_notes : Option String
  time_spent_seconds : Option Int
  evaluation_status : Option String
deriving Repr, DecidableEq

/-! ## Shared helpers of the handlers -/

/-- Update the first row satisfying `p` (an SQLAlchemy handler mutates the
single ORM object returned by `.first()`). -/
def updFirst {α : Type} (p : α → Bool) (f : α → α) : List α → List α
  | [] => []
  | a :: rest => if p a then f a :: rest else a :: updFirst p f rest

/-- The deduplication key of a submitted highlight:
`(start_index, end_index, text_type, comment)`. -/
def hlKey (h : TextHighlightCreate) : Int × Int × String × String :=
  (h.start_index, h.end_index, h.text_type, h.comment)

/-- The `seen`-set loop of `create_annotation` / `update_annotation`:
keep the first occurrence of each key, drop later duplicates. -/
def dedupHighlightsGo : List TextHighlightCreate → List (Int × Int × String × String)
    → List TextHighlightCreate
  | [], _ => []
  | h :: rest, seen =>
      if hlKey h ∈ seen then dedupHighlightsGo rest seen
      else h :: dedupHighlightsGo rest (hlKey h :: seen)

/-- Deduplicate a submitted highlight list by `hlKey`, keeping first
occurrences in order. -/
def dedupHighlights (hs : List TextHighlightCreate) : List TextHighlightCreate :=
  dedupHighlightsGo hs []

/-- Turn the deduplicated highlight payloads into `text_highlights` rows
for annotation `aid`, assigning consecutive ids from `startId`. -/
def mkHighlightRows (startId aid : Nat) : List TextHighlightCreate → List TextHighlight
  | [] => []
  | h :: rest =>
      { id := startId, annotation_id := aid, highlighted_text := h.highlighted_text,
        start_index := h.start_index, end_index := h.end_index,
        text_type := h.text_type, comment := h.comment }
        :: mkHighlightRows (startId + 1) aid rest

/-- Turn a language list into `user_languages` rows for user `uid`,
assigning consecutive ids from `startId`. -/
def mkUserLanguageRows (startId uid : Nat) : List String → List UserLanguage
  | [] => []
  | l :: rest =>
      { id := startId, user_id := uid, language := l }
        :: mkUserLanguageRows (startId + 1) uid rest

/-! ## Mutating handlers of `main.py` -/

/-- POST `/api/register` (`register` in `main.py`).  Commits the new user
row first; a second commit adds the `user_languages` rows (from
`languages` when truthy, else from `preferred_language` when truthy). -/
def register (user_data : UserCreate) (db : DB) : OpResult User :=
  match db.users.find? (fun u => u.email == user_data.email || u.username == user_data.username) with
  | some _ => ⟨.error ⟨400, "Email or username already registered"⟩, []⟩
  | none =>
    let db_user : User :=
      { id := db.next_user_id
        email := user_data.email
        username := user_data.username
        first_name := user_data.first_name
        last_name := user_data.last_name
        preferred_language :=
          if pyTruthyStr user_data.preferred_language then user_data.preferred_language.getD ""
          else match user_data.languages with
            | l :: _ => l
            | [] => "tagalog"
        hashed_password := get_password_hash user_data.password
        is_admin := false
        is_evaluator := user_data.is_evaluator
        is_active := true
        guidelines_seen := false }
    let db1 : DB := { db with users := db.users ++ [db_user], next_user_id := db.next_user_id + 1 }
    if user_data.languages.length > 0 then
      let db2 : DB := { db1 with
        user_languages := db1.user_languages
          ++ mkUserLanguageRows db1.next_user_language_id db_user.id user_data.languages,
        next_user_language_id := db1.next_user_language_id + user_data.languages.length }
      ⟨.ok db_user, [db1, db2]⟩
    else if pyTruthyStr user_data.preferred_language then
      let db2 : DB := { db1 with
        user_languages := db1.user_languages
          ++ [{ id := db1.next_user_language_id, user_id := db_user.id,
                language := user_data.preferred_language.getD "" }],
        next_user_language_id := db1.next_user_language_id + 1 }
      ⟨.ok db_user, [db1, db2]⟩
    else
      ⟨.ok db_user, [db1]⟩

/-- PUT `/api/me/guidelines-seen` (`mark_guidelines_seen`). -/
def mark_guidelines_seen (current_user : User) (db : DB) : OpResult User :=
  let db1 : DB := { db with
    users := updFirst (fun u => u.id == current_user.id)
      (fun u => { u with guidelines_seen := true }) db.users }
  ⟨.ok { current_user with guidelines_seen := true }, [db1]⟩

/-- POST `/api/sentences` (`create_sentence`). -/
def create_sentence (sentence_data : SentenceCreate) (db : DB) : OpResult Sentence :=
  let s : Sentence :=
    { id := db.next_sentence_id
      source_text := sentence_data.source_text
      machine_translation := sentence_data.machine_translation
      source_language := sentence_data.source_language
      target_language := sentence_data.target_language
      domain := sentence_data.domain
      is_active := true }
  let db1 : DB := { db with
    sentences := db.sentences ++ [s],
    next_sentence_id := db.next_sentence_id + 1 }
  ⟨.ok s, [db1]⟩

/-- Rows created by POST `/api/admin/sentences/bulk`. -/
def mkSentenceRows (startId : Nat) : List SentenceCreate → List Sentence
  | [] => []
  | d :: rest =>
      { id := startId, source_text := d.source_text,
        machine_translation := d.machine_translation,
        source_language := d.source_language, target_language := d.target_language,
        domain := d.domain, is_active := true }
        :: mkSentenceRows (startId + 1) rest

/-- POST `/api/admin/sentences/bulk` (`bulk_create_sentences`): all rows
added, then a single commit. -/
def bulk_create_sentences (sentences_data : List SentenceCreate) (db : DB) :
    OpResult (List Sentence) :=
  let rows := mkSentenceRows db.next_sentence_id sentences_data
  let db1 : DB := { db with
    sentences := db.sentences ++ rows,
    next_sentence_id := db.next_sentence_id + sentences_data.length }
  ⟨.ok rows, [db1]⟩

/-- POST `/api/annotations` (`create_annotation` in `main.py`).  Rejects a
duplicate (sentence, annotator) pair with 400 before writing; otherwise
inserts the annotation row with status `"completed"`, inserts the
deduplicated highlight rows, and commits once. -/
def createAnnot (current_user : User) (annotation_data : AnnotCreate) (db : DB) :
    OpResult Annot :=
  match db.annots.find? (fun a =>
      a.sentence_id == annotation_data.sentence_id && a.annotator_id == current_user.id) with
  | some _ => ⟨.error ⟨400, "You have already annotated this sentence"⟩, []⟩
  | none =>
    let a : Annot :=
      { id := db.next_annot_id
        sentence_id := annotation_data.sentence_id
        annotator_id := current_user.id
        fluency_score := annotation_data.fluency_score
        adequacy_score := annotation_data.adequacy_score
        overall_quality := annotation_data.overall_quality
        errors_found := annotation_data.errors_found
        suggested_correction := annotation_data.suggested_correction
        comments := annotation_data.comments
        final_form := annotation_data.final_form
        time_spent_seconds := annotation_data.time_spent_seconds
        annotation_status := "completed" }
    let uh := dedupHighlights annotation_data.highlights
    let db1 : DB := { db with
      annots := db.annots ++ [a],
      next_annot_id := db.next_annot_id + 1,
      highlights := db.highlights ++ mkHighlightRows db.next_highlight_id a.id uh,
      next_highlight_id := db.next_highlight_id + uh.length }
    ⟨.ok a, [db1]⟩

/-- POST `/api/annotations/legacy` (`create_legacy_annotation`): the same
duplicate pre-check and insertion, without highlights. -/
def createLegacyAnnot (current_user : User) (annotation_data : LegacyAnnotCreate)
    (db : DB) : OpResult Annot :=
  match db.annots.find? (fun a =>
      a.sentence_id == annotation_data.sentence_id && a.annotator_id == current_user.id) with
  | some _ => ⟨.error ⟨400, "You have already annotated this sentence"⟩, []⟩
  | none =>
    let a : Annot :=
      { id := db.next_annot_id
        sentence_id := annotation_data.sentence_id
        annotator_id := current_user.id
        fluency_score := annotation_data.fluency_score
        adequacy_score := annotation_data.adequacy_score
        overall_quality := annotation_data.overall_quality
        errors_found := annotation_data.errors_found
        suggested_correction := annotation_data.suggested_correction
        comments := annotation_data.comments
        final_form := annotation_data.final_form
        time_spent_seconds := annotation_data.time_spent_seconds
        annotation_status := "completed" }
    let db1 : DB := { db with
      annots := db.annots ++ [a],
      next_annot_id := db.next_annot_id + 1 }
    ⟨.ok a, [db1]⟩

/-- The `setattr` loop of `update_annotation`: every payload field that
was provided overwrites the corresponding column. -/
def applyAnnotUpdate (annotation_data : AnnotUpdate) (a : Annot) : Annot :=
  { a with
    fluency_score := match annotation_data.fluency_score with
      | some v => some v
      | none => a.fluency_score,
    adequacy_score := match annotation_data.adequacy_score with
      | some v => some v
      | none => a.adequacy_score,
    overall_quality := match annotation_data.overall_quality with
      | some v => some v
      | none => a.overall_quality,
    errors_found := match annotation_data.errors_found with
      | some v => some v
      | none => a.errors_found,
    suggested_correction := match annotation_data.suggested_correction with
      | some v => some v
      | none => a.suggested_correction,
    comments := match annotation_data.comments with
      | some v => some v
      | none => a.comments,
    final_form := match annotation_data.final_form with
      | some v => some v
      | none => a.final_form,
    time_spent_seconds := match annotation_data.time_spent_seconds with
      | some v => some v
      | none => a.time_spent_seconds,
    annotation_status := match annotation_data.annotation_status with
      | some v => v
      | none => a.annotation_status }

/-- PUT `/api/annotations/\x7bannotation_id\x7d` (`update_annotation`).
404 unless an annotation with this id owned by the caller exists; updates
the provided fields; when `highlights` was provided, deletes every
existing highlight row of this annotation and inserts the deduplicated
submitted ones; commits once. -/
def updateAnnot (annotation_id : Nat) (annotation_data : AnnotUpdate)
    (current_user : User) (db : DB) : OpResult Annot :=
  match db.annots.find? (fun a =>
      a.id == annotation_id && a.annotator_id == current_user.id) with
  | none => ⟨.error ⟨404, "Annotation not found"⟩, []⟩
  | some a0 =>
    let db1 : DB := { db with
      annots := updFirst (fun a => a.id == annotation_id && a.annotator_id == current_user.id)
        (applyAnnotUpdate annotation_data) db.annots }
    let db2 : DB :=
      match annotation_data.highlights with
      | none => db1
      | some hs =>
        let uh := dedupHighlights hs
        { db1 with
          highlights := (db1.highlights.filter (fun h => !(h.annotation_id == annotation_id)))
            ++ mkHighlightRows db1.next_highlight_id annotation_id uh,
          next_highlight_id := db1.next_highlight_id + uh.length }
    ⟨.ok (applyAnnotUpdate annotation_data a0), [db2]⟩

/-- PUT `/api/admin/users/\x7buser_id\x7d/toggle-evaluator`
(`toggle_user_evaluator_role`): 404 unless the user exists, else negates
that user's `is_evaluator` flag and commits once. -/
def toggle_user_evaluator_role (user_id : Nat) (db : DB) : OpResult User :=
  match db.users.find? (fun u => u.id == user_id) with
  | none => ⟨.error ⟨404, "User not found"⟩, []⟩
  | some u0 =>
    let db1 : DB := { db with
      users := updFirst (fun u => u.id == user_id)
        (fun u => { u with is_evaluator := !u.is_evaluator }) db.users }
    ⟨.ok { u0 with is_evaluator := !u0.is_evaluator }, [db1]⟩

/-- POST `/api/evaluations` (`create_evaluation` in `main.py`).  Rejects a
duplicate (annotation, evaluator) pair with 400; otherwise inserts the
evaluation with status `"completed"` and commits; then, if the referenced
annotation exists, sets its status to `"reviewed"` and commits a second
time. -/
def create_evaluation (current_user : User) (evaluation_data : EvaluationCreate)
    (db : DB) : OpResult Evaluation :=
  match db.evaluations.find? (fun e =>
      e.annotation_id == evaluation_data.annotation_id && e.evaluator_id == current_user.id) with
  | some _ => ⟨.error ⟨400, "You have already evaluated this annotation"⟩, []⟩
  | none =>
    let ev : Evaluation :=
      { id := db.next_evaluation_id
        annotation_id := evaluation_data.annotation_id
        evaluator_id := current_user.id
        annotation_quality_score := evaluation_data.annotation_quality_score
        accuracy_score := evaluation_data.accuracy_score
        completeness_score := evaluation_data.completeness_score
        overall_evaluation_score := evaluation_data.overall_evaluation_score
        feedback := evaluation_data.feedback
        evaluation_notes := evaluation_data.evaluation_notes
        time_spent_seconds := evaluation_data.time_spent_seconds
        evaluation_status := "completed" }
    let db1 : DB := { db with
      evaluations := db.evaluations ++ [ev],
      next_evaluation_id := db.next_evaluation_id + 1 }
    match db1.annots.find? (fun a => a.id == evaluation_data.annotation_id) with
    | some _ =>
      let db2 : DB := { db1 with
        annots := updFirst (fun a => a.id == evaluation_data.annotation_id)
          (fun a => { a with annotation_status := "reviewed" }) db1.annots }
      ⟨.ok ev, [db1, db2]⟩
    | none => ⟨.ok ev, [db1]⟩

/-- The `setattr` loop of `update_evaluation`. -/
def applyEvaluationUpdate (evaluation_data : EvaluationUpdate) (e : Evaluation) :
    Evaluation :=
  { e with
    annotation_quality_score := match evaluation_data.annotation_quality_score with
      | some v => some v
      | none => e.annotation_quality_score,
    accuracy_score := match evaluation_data.accuracy_score with
      | some v => some v
      | none => e.accuracy_score,
    completeness_score := match evaluation_data.completeness_score with
      | some v => some v
      | none => e.completeness_score,
    overall_evaluation_score := match evaluation_data.overall_evaluation_score with
      | some v => some v
      | none => e.overall_evaluation_score,
    feedback := match evaluation_data.feedback with
      | some v => some v
      | none => e.feedback,
    evaluation_notes := match evaluation_data.evaluation_notes with
      | some v => some v
      | none => e.evaluation_notes,
    time_spent_seconds := match evaluation_data.time_spent_seconds with
      | some v => some v
      | none => e.time_spent_seconds,
    evaluation_status := match evaluation_data.evaluation_status with
      | some v => v
      | none => e.evaluation_status }

/-- PUT `/api/evaluations/\x7bevaluation_id\x7d` (`update_evaluation`):
404 unless an evaluation with this id owned by the caller exists; updates
the provided fields and commits once. -/
def update_evaluation (evaluation_id : Nat) (evaluation_data : EvaluationUpdate)
    (current_user : User) (db : DB) : OpResult Evaluation :=
  match db.evaluations.find? (fun e =>
      e.id == evaluation_id && e.evaluator_id == current_user.id) with
  | none => ⟨.error ⟨404, "Evaluation not found"⟩, []⟩
  | some e0 =>
    let db1 : DB := { db with
      evaluations := updFirst (fun e => e.id == evaluation_id && e.evaluator_id == current_user.id)
        (applyEvaluationUpdate evaluation_data) db.evaluations }
    ⟨.ok (applyEvaluationUpdate evaluation_data e0), [db1]⟩

/-- POST `/api/me/languages` (`update_user_languages`): deletes the
caller's `user_languages` rows, inserts one row per submitted language,
sets `preferred_language` to the first submitted language when the list
is non-empty, and commits once. -/
def update_user_languages (languages : List String) (current_user : User)
    (db : DB) : OpResult (List String) :=
  let kept := db.user_languages.filter (fun ul => !(ul.user_id == current_user.id))
  let added := mkUserLanguageRows db.next_user_language_id current_user.id languages
  let db1 : DB := { db with
    user_languages := kept ++ added,
    next_user_language_id := db.next_user_language_id + languages.length,
    users :=
      match languages with
      | l :: _ => updFirst (fun u => u.id == current_user.id)
          (fun u => { u with preferred_language := l }) db.users
      | [] => db.users }
  ⟨.ok languages, [db1]⟩

/-! ## Read-only evaluation queries -/

/-- Whether an evaluation row by evaluator `uid` for annotation `aid`
exists. -/
def hasEvaluationBy (db : DB) (aid uid : Nat) : Bool :=
  (db.evaluations.find? (fun e => e.annotation_id == aid && e.evaluator_id == uid)).isSome

/-- The row filter of GET `/api/evaluations/pending`: annotation status
`"completed"` and id not among the annotation ids already evaluated by
the caller. -/
def pendingFilter (db : DB) (current_user : User) (a : Annot) : Bool :=
  a.annotation_status == "completed" && !(hasEvaluationBy db a.id current_user.id)

/-- GET `/api/evaluations/pending` (`get_pending_evaluations`), paginated
with OFFSET `skip` and LIMIT `limit`. -/
def get_pending_evaluations (db : DB) (current_user : User)
    (skip limit : Nat) : List Annot :=
  (((db.annots.filter (pendingFilter db current_user)).drop skip).take limit)

/-- `EvaluatorStats` response. -/
structure EvaluatorStats where
  total_evaluations : Nat
  completed_evaluations : Nat
  pending_evaluations : Nat
  average_time_per_evaluation : Rat
deriving Repr, DecidableEq

/-- GET `/api/evaluator/stats` (`get_evaluator_stats`).  The average is
the sum of `time_spent_seconds` over the caller's evaluations having a
non-null time, divided by their number, and `0.0` when there are none;
Python floats are modelled by exact rationals. -/
def get_evaluator_stats (db : DB) (current_user : User) : EvaluatorStats :=
  let mine := db.evaluations.filter (fun e => e.evaluator_id == current_user.id)
  let evaluations_with_time := mine.filter (fun e => e.time_spent_seconds.isSome)
  { total_evaluations := mine.length
    completed_evaluations :=
      (mine.filter (fun e => e.evaluation_status == "completed")).length
    pending_evaluations :=
      (db.annots.filter (pendingFilter db current_user)).length
    average_time_per_evaluation :=
      if evaluations_with_time.length > 0 then
        ((evaluations_with_time.map (fun e => e.time_spent_seconds.getD 0)).sum : Rat)
          / (evaluations_with_time.length : Rat)
      else 0 }

/-! ## The mutating API surface as one dispatch type (for whole-API
invariants).  The GET handlers of `main.py` only build responses and
never write, so the database state is changed exactly by these. -/

/-- One invocation of a mutating API endpoint, with its request data and
(where the handler uses it) the authenticated caller. -/
inductive ApiOp where
  | opRegister (user_data : UserCreate)
  | opMarkGuidelinesSeen (current_user : User)
  | opCreateSentence (sentence_data : SentenceCreate)
  | opBulkCreateSentences (sentences_data : List SentenceCreate)
  | opCreateAnnot (current_user : User) (annotation_data : AnnotCreate)
  | opCreateLegacyAnnot (current_user : User) (annotation_data : LegacyAnnotCreate)
  | opUpdateAnnot (annotation_id : Nat) (annotation_data : AnnotUpdate) (current_user : User)
  | opToggleEvaluator (user_id : Nat)
  | opCreateEvaluation (current_user : User) (evaluation_data : EvaluationCreate)
  | opUpdateEvaluation (evaluation_id : Nat) (evaluation_data : EvaluationUpdate) (current_user : User)
  | opUpdateUserLanguages (languages : List String) (current_user : User)
deriving Repr

/-- The database state after running one mutating endpoint (its last
committed state, or the unchanged state when it failed before any
commit). -/
def applyOp (op : ApiOp) (db : DB) : DB :=
  match op with
  | .opRegister d => (register d db).final db
  | .opMarkGuidelinesSeen u => (mark_guidelines_seen u db).final db
  | .opCreateSentence d => (create_sentence d db).final db
  | .opBulkCreateSentences d => (bulk_create_sentences d db).final db
  | .opCreateAnnot u d => (createAnnot u d db).final db
  | .opCreateLegacyAnnot u d => (createLegacyAnnot u d db).final db
  | .opUpdateAnnot i d u => (updateAnnot i d u db).final db
  | .opToggleEvaluator i => (toggle_user_evaluator_role i db).final db
  | .opCreateEvaluation u d => (create_evaluation u d db).final db
  | .opUpdateEvaluation i d u => (update_evaluation i d u db).final db
  | .opUpdateUserLanguages l u => (update_user_languages l u db).final db

/-! ## Sentence assignment (`get_next_sentence`) -/

/-- The matching condition of the sentence-assignment queries, as a
proposition: active, target language equal to the caller's preferred
language, and not yet annotated by the caller. -/
def SentenceMatches (db : DB) (u : User) (s : Sentence) : Prop :=
  s.is_active = true ∧ s.target_language = u.preferred_language
    ∧ ∀ a ∈ db.annots, ¬(a.sentence_id = s.id ∧ a.annotator_id = u.id)

lemma hasAnnotBy_iff (db : DB) (sid uid : Nat) :
    hasAnnotBy db sid uid = true
      ↔ ∃ a ∈ db.annots, a.sentence_id = sid ∧ a.annotator_id = uid := by
  simp [hasAnnotBy, List.find?_isSome]

lemma nextSentenceFilter_iff (db : DB) (u : User) (s : Sentence) :
    nextSentenceFilter db u s = true ↔ SentenceMatches db u s := by
  simp only [nextSentenceFilter, SentenceMatches, Bool.and_eq_true, Bool.not_eq_true',
    beq_iff_eq, ← Bool.not_eq_true (hasAnnotBy db s.id u.id), hasAnnotBy_iff]
  constructor
  · rintro ⟨⟨h1, h2⟩, h3⟩
    refine ⟨h1, h2, fun a ha hc => h3 ⟨a, ha, hc⟩⟩
  · rintro ⟨h1, h2, h3⟩
    refine ⟨⟨h1, h2⟩, fun hc => ?_⟩
    obtain ⟨a, ha, hc⟩ := hc
    exact h3 a ha hc

/-- `List.find?` on a list strictly sorted by a numeric key returns,
among all elements satisfying the predicate, the one with the least key. -/
lemma find?_min_key {α : Type} (p : α → Bool) (key : α → Nat) :
    ∀ (l : List α), l.Pairwise (fun x y => key x < key y) →
      ∀ a, l.find? p = some a → ∀ b ∈ l, p b = true → key a ≤ key b
  | [], _, a, h, _, _, _ => by simp at h
  | x :: xs, hp, a, h, b, hb, hpb => by
    rw [List.pairwise_cons] at hp
    by_cases hx : p x
    · rw [List.find?_cons_of_pos _ hx] at h
      cases h
      rcases List.mem_cons.mp hb with rfl | hbxs
      · exact Nat.le_refl _
      · exact Nat.le_of_lt (hp.1 b hbxs)
    · rw [List.find?_cons_of_neg _ (by simpa using hx)] at h
      rcases List.mem_cons.mp hb with rfl | hbxs
      · exact absurd hpb hx
      · exact find?_min_key p key xs hp.2 a h b hbxs hpb

/-- C1: `get_next_sentence` returns a sentence only if it is active, its
target language equals the caller's preferred language and the caller has
not annotated it; when several sentences match it returns the one first
by primary key (the key order being the stored order of the table); and
it returns `none` exactly when no sentence matches. -/
theorem get_next_sentence_correct (db : DB) (u : User)
    (hsorted : db.sentences.Pairwise (fun s t => s.id < t.id)) :
    (∀ s, get_next_sentence db u = some s →
        s ∈ db.sentences ∧ SentenceMatches db u s
          ∧ ∀ t ∈ db.sentences, SentenceMatches db u t → s.id ≤ t.id)
    ∧ (get_next_sentence db u = none
        ↔ ∀ s ∈ db.sentences, ¬ SentenceMatches db u s) := by
  constructor
  · intro s hs
    refine ⟨List.mem_of_find?_eq_some hs,
      (nextSentenceFilter_iff db u s).mp (List.find?_some hs), ?_⟩
    intro t ht hmt
    exact find?_min_key _ (fun s => s.id) db.sentences hsorted s hs t ht
      ((nextSentenceFilter_iff db u t).mpr hmt)
  · rw [get_next_sentence, List.find?_eq_none]
    constructor
    · intro h s hs hm
      exact h s hs ((nextSentenceFilter_iff db u s).mpr hm)
    · intro h s hs hp
      exact h s hs ((nextSentenceFilter_iff db u s).mp hp)

/-! ## Concrete sample data for witnesses -/

/-- A sample user (id 1, preferred language "fr", evaluator). -/
def wUser : User :=
  { id := 1, email := "ann@x.test", username := "ann", first_name := "An",
    last_name := "N", preferred_language := "fr", hashed_password := "h",
    is_admin := false, is_evaluator := true, is_active := true,
    guidelines_seen := false }

/-- A sample sentence with the given id, target language "fr". -/
def wSentence (i : Nat) : Sentence :=
  { id := i, source_text := "The cat.", machine_translation := "Le chat.",
    source_language := "en", target_language := "fr", domain := none,
    is_active := true }

/-- A sample completed annotation of sentence `sid` by annotator `uid`. -/
def wAnnot (i sid uid : Nat) : Annot :=
  { id := i, sentence_id := sid, annotator_id := uid, fluency_score := some 4,
    adequacy_score := some 4, overall_quality := some 4, errors_found := none,
    suggested_correction := none, comments := none, final_form := none,
    time_spent_seconds := some 60, annotation_status := "completed" }

/-- A sample database: one user, two "fr" sentences, one annotation by
user 1 on sentence 1. -/
def wDB : DB :=
  { users := [wUser], user_languages := [⟨1, 1, "fr"⟩],
    sentences := [wSentence 1, wSentence 2],
    annots := [wAnnot 1 1 1], highlights := [], evaluations := [],
    next_user_id := 2, next_user_language_id := 2, next_sentence_id := 3,
    next_annot_id := 2, next_highlight_id := 1, next_evaluation_id := 1 }

/-- Witness for C1 at a concrete database: the sortedness hypothesis is
discharged by evaluation and the theorem applied. -/
theorem get_next_sentence_correct_witness :
    wDB.sentences.Pairwise (fun s t => s.id < t.id)
      ∧ (∀ s, get_next_sentence wDB wUser = some s →
          s ∈ wDB.sentences ∧ SentenceMatches wDB wUser s
            ∧ ∀ t ∈ wDB.sentences, SentenceMatches wDB wUser t → s.id ≤ t.id) :=
  ⟨by decide, (get_next_sentence_correct wDB wUser (by decide)).1⟩

/-! ## Uniqueness of annotations per (sentence, annotator) -/

/-- No two annotation rows share the (sentence_id, annotator_id) pair. -/
def AtMostOnePerPair (l : List Annot) : Prop :=
  l.Pairwise (fun a b => ¬(a.sentence_id = b.sentence_id ∧ a.annotator_id = b.annotator_id))

lemma OpResult.final_single {α : Type} (db d : DB) (r : Except HErr α) :
    OpResult.final db ⟨r, [d]⟩ = d := rfl

lemma annotDup_find?_isSome (db : DB) (sid uid : Nat)
    (h : ∃ a ∈ db.annots, a.sentence_id = sid ∧ a.annotator_id = uid) :
    (db.annots.find? (fun a => a.sentence_id == sid && a.annotator_id == uid)).isSome := by
  rw [List.find?_isSome]
  obtain ⟨a, ha, h1, h2⟩ := h
  exact ⟨a, ha, by simp [h1, h2]⟩

/-- C2: when the caller has already annotated the target sentence, both
annotation-creation endpoints fail with a 400 conflict and commit
nothing, and both preserve the invariant that at most one annotation per
(sentence_id, annotator_id) pair exists. -/
theorem createAnnot_conflict_unique (db : DB) (u : User) (i : AnnotCreate)
    (li : LegacyAnnotCreate) :
    ((∃ a ∈ db.annots, a.sentence_id = i.sentence_id ∧ a.annotator_id = u.id) →
        (createAnnot u i db).res = .error ⟨400, "You have already annotated this sentence"⟩
          ∧ (createAnnot u i db).commits = [])
    ∧ ((∃ a ∈ db.annots, a.sentence_id = li.sentence_id ∧ a.annotator_id = u.id) →
        (createLegacyAnnot u li db).res = .error ⟨400, "You have already annotated this sentence"⟩
          ∧ (createLegacyAnnot u li db).commits = [])
    ∧ (AtMostOnePerPair db.annots →
        AtMostOnePerPair ((createAnnot u i db).final db).annots
          ∧ AtMostOnePerPair ((createLegacyAnnot u li db).final db).annots) := by
  refine ⟨?_, ?_, ?_⟩
  · intro h
    have hs := annotDup_find?_isSome db i.sentence_id u.id h
    rcases hf : db.annots.find?
        (fun a => a.sentence_id == i.sentence_id && a.annotator_id == u.id) with _ | a
    · rw [hf] at hs; simp at hs
    · simp [createAnnot, hf]
  · intro h
    have hs := annotDup_find?_isSome db li.sentence_id u.id h
    rcases hf : db.annots.find?
        (fun a => a.sentence_id == li.sentence_id && a.annotator_id == u.id) with _ | a
    · rw [hf] at hs; simp at hs
    · simp [createLegacyAnnot, hf]
  · intro hinv
    constructor
    · rcases hf : db.annots.find?
          (fun a => a.sentence_id == i.sentence_id && a.annotator_id == u.id) with _ | a
      · have hnone := List.find?_eq_none.mp hf
        simp only [createAnnot, hf, OpResult.final_single]
        rw [AtMostOnePerPair, List.pairwise_append]
        refine ⟨hinv, List.pairwise_singleton _ _, ?_⟩
        intro x hx y hy
        have := hnone x hx
        simp only [List.mem_singleton] at hy
        subst hy
        simp only [Bool.and_eq_true, beq_iff_eq] at this
        intro hc
        exact this ⟨hc.1, hc.2⟩
      · simpa [createAnnot, hf, OpResult.final] using hinv
    · rcases hf : db.annots.find?
          (fun a => a.sentence_id == li.sentence_id && a.annotator_id == u.id) with _ | a
      · have hnone := List.find?_eq_none.mp hf
        simp only [createLegacyAnnot, hf, OpResult.final_single]
        rw [AtMostOnePerPair, List.pairwise_append]
        refine ⟨hinv, List.pairwise_singleton _ _, ?_⟩
        intro x hx y hy
        have := hnone x hx
        simp only [List.mem_singleton] at hy
        subst hy
        simp only [Bool.and_eq_true, beq_iff_eq] at this
        intro hc
        exact this ⟨hc.1, hc.2⟩
      · simpa [createLegacyAnnot, hf, OpResult.final] using hinv

/-- A sample annotation payload for sentence `sid` without highlights. -/
def wAnnotCreate (sid : Nat) : AnnotCreate :=
  { fluency_score := some 5, adequacy_score := some 4, overall_quality := some 4,
    errors_found := none, suggested_correction := none, comments := some "ok",
    final_form := none, time_spent_seconds := some 30, sentence_id := sid,
    highlights := [] }

/-- A sample legacy annotation payload for sentence `sid`. -/
def wLegacyCreate (sid : Nat) : LegacyAnnotCreate :=
  { fluency_score := some 3, adequacy_score := some 3, overall_quality := some 3,
    errors_found := none, suggested_correction := none, comments := none,
    final_form := none, time_spent_seconds := none, sentence_id := sid }

/-- Witness for C2: user 1 has already annotated sentence 1 in the sample
database, and a second attempt is rejected with the 400 conflict. -/
theorem createAnnot_conflict_unique_witness :
    (∃ a ∈ wDB.annots, a.sentence_id = (wAnnotCreate 1).sentence_id ∧ a.annotator_id = wUser.id)
      ∧ (createAnnot wUser (wAnnotCreate 1) wDB).res
          = .error ⟨400, "You have already annotated this sentence"⟩ :=
  ⟨by decide,
    ((createAnnot_conflict_unique wDB wUser (wAnnotCreate 1) (wLegacyCreate 1)).1
      (by decide)).1⟩

/-! ## Evaluation creation flips the annotation status -/

lemma OpResult.final_pair {α : Type} (db d1 d2 : DB) (r : Except HErr α) :
    OpResult.final db ⟨r, [d1, d2]⟩ = d2 := rfl

lemma mem_updFirst_reviewed (aid : Nat) :
    ∀ (l : List Annot), l.Pairwise (fun x y => x.id ≠ y.id) →
      ∀ a ∈ l, a.id = aid →
        { a with annotation_status := "reviewed" }
          ∈ updFirst (fun x => x.id == aid)
              (fun x => { x with annotation_status := "reviewed" }) l
  | [], _, a, ha, _ => absurd ha (List.not_mem_nil a)
  | x :: xs, hp, a, ha, haid => by
    rw [List.pairwise_cons] at hp
    by_cases hx : x.id = aid
    · rw [updFirst, if_pos (by simpa using hx)]
      rcases List.mem_cons.mp ha with rfl | haxs
      · exact List.mem_cons_self _ _
      · exact absurd (haid ▸ hx) (hp.1 a haxs)
    · rw [updFirst, if_neg (by simpa using hx)]
      rcases List.mem_cons.mp ha with rfl | haxs
      · exact absurd haid hx
      · exact List.mem_cons_of_mem _ (mem_updFirst_reviewed aid xs hp.2 a haxs haid)

/-- C3: a successful `create_evaluation` for an existing annotation with
status `"completed"` leaves that annotation stored with status
`"reviewed"` (annotation ids being unique, as they are assigned by the
autoincrementing primary key). -/
theorem create_evaluation_reviews (db : DB) (u : User) (i : EvaluationCreate)
    (a : Annot) (ha : a ∈ db.annots) (haid : a.id = i.annotation_id)
    (hstatus : a.annotation_status = "completed")
    (hids : db.annots.Pairwise (fun x y => x.id ≠ y.id)) :
    ∀ ev, (create_evaluation u i db).res = .ok ev →
      { a with annotation_status := "reviewed" }
        ∈ ((create_evaluation u i db).final db).annots := by
  intro ev hok
  rcases hf : db.evaluations.find?
      (fun e => e.annotation_id == i.annotation_id && e.evaluator_id == u.id) with _ | e0
  · have hfind : (db.annots.find? (fun x => x.id == i.annotation_id)).isSome := by
      rw [List.find?_isSome]
      exact ⟨a, ha, by simp [haid]⟩
    rcases hf2 : db.annots.find? (fun x => x.id == i.annotation_id) with _ | a0
    · rw [hf2] at hfind; simp at hfind
    · simp only [create_evaluation, hf, hf2, OpResult.final_pair]
      exact mem_updFirst_reviewed i.annotation_id db.annots hids a ha haid
  · simp [create_evaluation, hf] at hok

/-- A sample evaluation payload for annotation 1. -/
def wEvalCreate : EvaluationCreate :=
  { annotation_quality_score := some 4, accuracy_score := some 4,
    completeness_score := some 4, overall_evaluation_score := some 4,
    feedback := some "fine", evaluation_notes := none,
    time_spent_seconds := some 45, annotation_id := 1 }

/-- The evaluation row created by `create_evaluation wUser wEvalCreate wDB`. -/
def wEvalRow : Evaluation :=
  { id := 1, annotation_id := 1, evaluator_id := 1,
    annotation_quality_score := some 4, accuracy_score := some 4,
    completeness_score := some 4, overall_evaluation_score := some 4,
    feedback := some "fine", evaluation_notes := none,
    time_spent_seconds := some 45, evaluation_status := "completed" }

/-- Witness for C3: in the sample database evaluating the completed
annotation 1 succeeds and the stored annotation 1 ends up `"reviewed"`. -/
theorem create_evaluation_reviews_witness :
    (wAnnot 1 1 1 ∈ wDB.annots ∧ (wAnnot 1 1 1).id = wEvalCreate.annotation_id
        ∧ (wAnnot 1 1 1).annotation_status = "completed"
        ∧ wDB.annots.Pairwise (fun x y => x.id ≠ y.id))
      ∧ { wAnnot 1 1 1 with annotation_status := "reviewed" }
          ∈ ((create_evaluation wUser wEvalCreate wDB).final wDB).annots :=
  ⟨⟨by decide, by decide, by decide, by decide⟩,
    create_evaluation_reviews wDB wUser wEvalCreate (wAnnot 1 1 1)
      (by decide) (by decide) (by decide) (by decide) wEvalRow rfl⟩

/-! ## Highlight deduplication -/

/-- The deduplication key of a stored highlight row. -/
def storedHlKey (h : TextHighlight) : Int × Int × String × String :=
  (h.start_index, h.end_index, h.text_type, h.comment)

lemma countP_dedupHighlightsGo (k : Int × Int × String × String) :
    ∀ (hs : List TextHighlightCreate) (seen : List (Int × Int × String × String)),
      (dedupHighlightsGo hs seen).countP (fun h => hlKey h == k)
        = if k ∈ seen then 0 else if k ∈ hs.map hlKey then 1 else 0
  | [], seen => by simp [dedupHighlightsGo]
  | h :: rest, seen => by
    rw [dedupHighlightsGo]
    by_cases hseen : hlKey h ∈ seen
    · rw [if_pos hseen, countP_dedupHighlightsGo k rest seen]
      by_cases hk : k ∈ seen
      · simp [hk]
      · have hne : ¬ k = hlKey h := fun he => hk (he ▸ hseen)
        simp [hk, List.mem_cons, hne]
    · rw [if_neg hseen, List.countP_cons, countP_dedupHighlightsGo k rest (hlKey h :: seen)]
      by_cases hk : k = hlKey h
      · subst hk
        simp [hseen]
      · have h1 : ¬ hlKey h = k := fun he => hk he.symm
        simp only [List.mem_cons, beq_iff_eq, h1, if_false, Nat.add_zero]
        by_cases hks : k ∈ seen
        · simp [hks, fun (he : k = hlKey h) => hk he]
        · simp [hks, fun (he : k = hlKey h) => hk he]

lemma countP_dedupHighlights (k : Int × Int × String × String)
    (hs : List TextHighlightCreate) :
    (dedupHighlights hs).countP (fun h => hlKey h == k)
      = if k ∈ hs.map hlKey then 1 else 0 := by
  rw [dedupHighlights, countP_dedupHighlightsGo]
  simp

lemma mkHighlightRows_annotation_id (aid : Nat) :
    ∀ (startId : Nat) (hs : List TextHighlightCreate) (h : TextHighlight),
      h ∈ mkHighlightRows startId aid hs → h.annotation_id = aid
  | _, [], h, hmem => absurd hmem (List.not_mem_nil h)
  | startId, x :: rest, h, hmem => by
    rw [mkHighlightRows] at hmem
    rcases List.mem_cons.mp hmem with rfl | hmem2
    · rfl
    · exact mkHighlightRows_annotation_id aid (startId + 1) rest h hmem2

lemma countP_mkHighlightRows (k : Int × Int × String × String) (aid : Nat) :
    ∀ (startId : Nat) (hs : List TextHighlightCreate),
      (mkHighlightRows startId aid hs).countP (fun h => storedHlKey h == k)
        = hs.countP (fun h => hlKey h == k)
  | _, [] => by simp [mkHighlightRows]
  | startId, x :: rest => by
    rw [mkHighlightRows, List.countP_cons, List.countP_cons,
      countP_mkHighlightRows k aid (startId + 1) rest]
    have heq : (storedHlKey
        { id := startId, annotation_id := aid, highlighted_text := x.highlighted_text,
          start_index := x.start_index, end_index := x.end_index,
          text_type := x.text_type, comment := x.comment } == k) = (hlKey x == k) := by
      simp [storedHlKey, hlKey]
    rw [heq]

/-- C4: after a successful `createAnnot` (with a fresh annotation id, as
supplied by the autoincrementing primary key), and after a successful
`updateAnnot` whose payload provided a highlight list, the stored
highlight rows of the affected annotation contain exactly one row per
distinct (start_index, end_index, text_type, comment) tuple occurring in
the submitted list — also when the submitted list repeats a tuple. -/
theorem highlight_dedup_correct (db : DB) (u : User) (i : AnnotCreate)
    (aid : Nat) (iu : AnnotUpdate) (hs : List TextHighlightCreate) :
    ((∀ h ∈ db.highlights, h.annotation_id ≠ db.next_annot_id) →
      ∀ a, (createAnnot u i db).res = .ok a →
        ∀ k, (((createAnnot u i db).final db).highlights.filter
                (fun h => h.annotation_id == a.id)).countP (fun h => storedHlKey h == k)
          = if k ∈ i.highlights.map hlKey then 1 else 0)
    ∧ (iu.highlights = some hs →
      ∀ a, (updateAnnot aid iu u db).res = .ok a →
        ∀ k, (((updateAnnot aid iu u db).final db).highlights.filter
                (fun h => h.annotation_id == aid)).countP (fun h => storedHlKey h == k)
          = if k ∈ hs.map hlKey then 1 else 0) := by
  constructor
  · intro hfresh a hok k
    rcases hf : db.annots.find?
        (fun x => x.sentence_id == i.sentence_id && x.annotator_id == u.id) with _ | a0
    · simp only [createAnnot, hf] at hok
      rw [Except.ok.injEq] at hok
      simp only [createAnnot, hf, OpResult.final_single]
      rw [← hok]
      have h1 : db.highlights.filter (fun h => h.annotation_id == db.next_annot_id) = [] := by
        rw [List.filter_eq_nil_iff]
        intro h hmem
        simpa using hfresh h hmem
      have h2 : (mkHighlightRows db.next_highlight_id db.next_annot_id
          (dedupHighlights i.highlights)).filter (fun h => h.annotation_id == db.next_annot_id)
            = mkHighlightRows db.next_highlight_id db.next_annot_id
                (dedupHighlights i.highlights) := by
        rw [List.filter_eq_self]
        intro h hmem
        simp [mkHighlightRows_annotation_id db.next_annot_id db.next_highlight_id
          (dedupHighlights i.highlights) h hmem]
      rw [List.filter_append, h1, h2, List.nil_append, countP_mkHighlightRows,
        countP_dedupHighlights]
    · simp [createAnnot, hf] at hok
  · intro hhl a hok k
    rcases hf : db.annots.find?
        (fun x => x.id == aid && x.annotator_id == u.id) with _ | a0
    · simp [updateAnnot, hf] at hok
    · simp only [updateAnnot, hf, hhl, OpResult.final_single]
      have h1 : ((db.highlights.filter (fun h => !(h.annotation_id == aid))).filter
          (fun h => h.annotation_id == aid)) = [] := by
        rw [List.filter_eq_nil_iff]
        intro h hmem
        have h3 := (List.mem_filter.mp hmem).2
        simp at h3
        simp [h3]
      have h2 : (mkHighlightRows db.next_highlight_id aid
          (dedupHighlights hs)).filter (fun h => h.annotation_id == aid)
            = mkHighlightRows db.next_highlight_id aid (dedupHighlights hs) := by
        rw [List.filter_eq_self]
        intro h hmem
        simp [mkHighlightRows_annotation_id aid db.next_highlight_id
          (dedupHighlights hs) h hmem]
      rw [List.filter_append, h1, h2, List.nil_append, countP_mkHighlightRows,
        countP_dedupHighlights]

/-- A sample highlight payload over span [0,2) of the machine text. -/
def wHl (t c : String) : TextHighlightCreate :=
  { highlighted_text := t, start_index := 0, end_index := 2,
    text_type := "machine", comment := c }

/-- The sample database without the existing annotation (user 1 has not
annotated anything yet). -/
def wDB3 : DB := { wDB with annots := [] }

/-- An annotation payload for sentence 2 whose highlight list repeats the
tuple (0, 2, "machine", "wrong"). -/
def wHlCreate : AnnotCreate :=
  { wAnnotCreate 2 with
    highlights := [wHl "Le" "wrong", wHl "ch" "wrong", wHl "Le" "other"] }

/-- The annotation row created by `createAnnot wUser wHlCreate wDB3`. -/
def wNewAnnot : Annot :=
  { id := 2, sentence_id := 2, annotator_id := 1, fluency_score := some 5,
    adequacy_score := some 4, overall_quality := some 4, errors_found := none,
    suggested_correction := none, comments := some "ok", final_form := none,
    time_spent_seconds := some 30, annotation_status := "completed" }

/-- Witness for C4: creating an annotation with a duplicated highlight
tuple stores exactly one row per distinct tuple. -/
theorem highlight_dedup_correct_witness :
    (∀ h ∈ wDB3.highlights, h.annotation_id ≠ wDB3.next_annot_id)
      ∧ ∀ k, (((createAnnot wUser wHlCreate wDB3).final wDB3).highlights.filter
            (fun h => h.annotation_id == wNewAnnot.id)).countP (fun h => storedHlKey h == k)
          = if k ∈ wHlCreate.highlights.map hlKey then 1 else 0 :=
  ⟨by decide,
    (highlight_dedup_correct wDB3 wUser wHlCreate 0
        ⟨none, none, none, none, none, none, none, none, none, none⟩ []).1
      (by decide) wNewAnnot rfl⟩

/-! ## Commit granularity of the mutating handlers -/

/-- A registration payload with two languages and no conflict against the
sample database. -/
def wRegPayload : UserCreate :=
  { email := "bob@x.test", username := "bob", first_name := "Bo",
    last_name := "B", preferred_language := none, languages := ["fr", "en"],
    password := "pw", is_evaluator := false }

/-- Counterexample to C5: `register` is not a single all-or-nothing
transaction.  On this concrete input it commits twice, and the first
committed state already contains the new user row while still containing
none of the operation's `user_languages` writes — an intermediate state
in which only part of the operation's writes is visible. -/
theorem register_not_atomic_cex :
    (register wRegPayload wDB3).commits.length = 2
      ∧ ((register wRegPayload wDB3).commits.headD wDB3).users.length
          = wDB3.users.length + 1
      ∧ ((register wRegPayload wDB3).commits.headD wDB3).user_languages
          = wDB3.user_languages
      ∧ ((register wRegPayload wDB3).commits.getLastD wDB3).user_languages.length
          = wDB3.user_languages.length + 2 := by decide

/-- C5 as amended: every mutating handler except `register` and
`create_evaluation` commits at most once (it is all-or-nothing), while
`register` commits up to twice (the user row before the language rows)
and `create_evaluation` commits up to twice (the evaluation row before
the annotation status flip), each exposing an intermediate committed
state without the later writes. -/
theorem op_commit_granularity (db : DB) (i : UserCreate) (u : User)
    (sd : SentenceCreate) (sds : List SentenceCreate) (ac : AnnotCreate)
    (lac : LegacyAnnotCreate) (aid : Nat) (au : AnnotUpdate) (uid : Nat)
    (ec : EvaluationCreate) (eid : Nat) (eu : EvaluationUpdate)
    (ls : List String) :
    (mark_guidelines_seen u db).commits.length ≤ 1
    ∧ (create_sentence sd db).commits.length ≤ 1
    ∧ (bulk_create_sentences sds db).commits.length ≤ 1
    ∧ (createAnnot u ac db).commits.length ≤ 1
    ∧ (createLegacyAnnot u lac db).commits.length ≤ 1
    ∧ (updateAnnot aid au u db).commits.length ≤ 1
    ∧ (toggle_user_evaluator_role uid db).commits.length ≤ 1
    ∧ (update_evaluation eid eu u db).commits.length ≤ 1
    ∧ (update_user_languages ls u db).commits.length ≤ 1
    ∧ (register i db).commits.length ≤ 2
    ∧ (create_evaluation u ec db).commits.length ≤ 2
    ∧ (∀ v, (register i db).res = .ok v → i.languages.length > 0 →
        (register i db).commits.length = 2
          ∧ ((register i db).commits.headD db).user_languages = db.user_languages)
    ∧ (∀ v, (create_evaluation u ec db).res = .ok v →
        ((create_evaluation u ec db).commits.headD db).annots = db.annots) := by
  refine ⟨by simp [mark_guidelines_seen], by simp [create_sentence],
    by simp [bulk_create_sentences], ?_, ?_, ?_, ?_, ?_,
    by simp [update_user_languages], ?_, ?_, ?_, ?_⟩
  · rcases hf : db.annots.find?
        (fun a => a.sentence_id == ac.sentence_id && a.annotator_id == u.id) with _ | x
    · simp [createAnnot, hf]
    · simp [createAnnot, hf]
  · rcases hf : db.annots.find?
        (fun a => a.sentence_id == lac.sentence_id && a.annotator_id == u.id) with _ | x
    · simp [createLegacyAnnot, hf]
    · simp [createLegacyAnnot, hf]
  · rcases hf : db.annots.find?
        (fun a => a.id == aid && a.annotator_id == u.id) with _ | x
    · simp [updateAnnot, hf]
    · rcases hhl : au.highlights with _ | hs
      · simp [updateAnnot, hf, hhl]
      · simp [updateAnnot, hf, hhl]
  · rcases hf : db.users.find? (fun x => x.id == uid) with _ | x
    · simp [toggle_user_evaluator_role, hf]
    · simp [toggle_user_evaluator_role, hf]
  · rcases hf : db.evaluations.find?
        (fun e => e.id == eid && e.evaluator_id == u.id) with _ | x
    · simp [update_evaluation, hf]
    · simp [update_evaluation, hf]
  · rcases hf : db.users.find?
        (fun x => x.email == i.email || x.username == i.username) with _ | x
    · by_cases hl : i.languages.length > 0
      · simp [register, hf, hl]
      · by_cases hp : pyTruthyStr i.preferred_language <;> simp [register, hf, hl, hp]
    · simp [register, hf]
  · rcases hf : db.evaluations.find?
        (fun e => e.annotation_id == ec.annotation_id && e.evaluator_id == u.id) with _ | x
    · rcases hf2 : db.annots.find? (fun a => a.id == ec.annotation_id) with _ | a0
      · simp [create_evaluation, hf, hf2]
      · simp [create_evaluation, hf, hf2]
    · simp [create_evaluation, hf]
  · intro v hok hl
    rcases hf : db.users.find?
        (fun x => x.email == i.email || x.username == i.username) with _ | x
    · simp [register, hf, hl]
    · simp [register, hf] at hok
  · intro v hok
    rcases hf : db.evaluations.find?
        (fun e => e.annotation_id == ec.annotation_id && e.evaluator_id == u.id) with _ | x
    · rcases hf2 : db.annots.find? (fun a => a.id == ec.annotation_id) with _ | a0
      · simp [create_evaluation, hf, hf2]
      · simp [create_evaluation, hf, hf2]
    · simp [create_evaluation, hf] at hok

/-- The user row created by `register wRegPayload wDB3`. -/
def wRegUser : User :=
  { id := 2, email := "bob@x.test", username := "bob", first_name := "Bo",
    last_name := "B", preferred_language := "fr",
    hashed_password := get_password_hash "pw", is_admin := false,
    is_evaluator := false, is_active := true, guidelines_seen := false }

/-- Witness for the amended C5 at concrete inputs: a successful
registration with two languages really does commit exactly twice with the
user-only state first. -/
theorem op_commit_granularity_witness :
    ((register wRegPayload wDB3).res = .ok wRegUser
        ∧ wRegPayload.languages.length > 0)
      ∧ ((register wRegPayload wDB3).commits.length = 2
          ∧ ((register wRegPayload wDB3).commits.headD wDB3).user_languages
              = wDB3.user_languages) :=
  ⟨⟨by rfl, by decide⟩,
    (op_commit_granularity wDB3 wRegPayload wUser
        ⟨"s", "m", "en", "fr", none⟩ [] (wAnnotCreate 2) (wLegacyCreate 2) 1
        ⟨none, none, none, none, none, none, none, none, none, none⟩ 1
        wEvalCreate 1 ⟨none, none, none, none, none, none, none, none⟩
        ["fr"]).2.2.2.2.2.2.2.2.2.2.2.1
      wRegUser (by rfl) (by decide)⟩

/-! ## What the API can and cannot delete -/

/-- Counterexample to C6: `update_user_languages` deletes the caller's
existing `user_languages` rows.  In the sample database the row
(id 1, user 1, "fr") exists before the call and is gone after it. -/
theorem api_deletes_rows_cex :
    (⟨1, 1, "fr"⟩ : UserLanguage) ∈ wDB.user_languages
      ∧ (⟨1, 1, "fr"⟩ : UserLanguage)
          ∉ (applyOp (.opUpdateUserLanguages ["en"] wUser) wDB).user_languages := by
  decide

lemma map_updFirst {α β : Type} (p : α → Bool) (f : α → α) (g : α → β)
    (hg : ∀ a, p a = true → g (f a) = g a) :
    ∀ l : List α, (updFirst p f l).map g = l.map g
  | [] => rfl
  | x :: xs => by
    rw [updFirst]
    by_cases hx : p x
    · rw [if_pos hx]
      simp [hg x hx]
    · rw [if_neg hx]
      simp [map_updFirst p f g hg xs]

lemma map_mem_append {α β : Type} (g : α → β) (l ex : List α) :
    ∀ r ∈ l.map g, r ∈ (l ++ ex).map g := by
  intro r hr
  rw [List.map_append]
  exact List.mem_append_left _ hr

lemma mem_map_updFirst {α β : Type} (p : α → Bool) (f : α → α) (g : α → β)
    (hg : ∀ a, p a = true → g (f a) = g a) (l : List α) :
    ∀ r ∈ l.map g, r ∈ (updFirst p f l).map g := by
  intro r hr
  rw [map_updFirst p f g hg l]
  exact hr

/-- C6 as amended: no mutating API operation ever removes a stored User,
Sentence, Annotation or Evaluation (every primary key present before is
present after); but `update_annotation` deletes and replaces the
highlights of the updated annotation, and `update_user_languages` deletes
and replaces the caller's `user_languages` rows, so TextHighlight and
UserLanguage rows are deletable through the API. -/
theorem api_preserves_core_rows (op : ApiOp) (db : DB) :
    (∀ r ∈ db.users.map User.id, r ∈ (applyOp op db).users.map User.id)
    ∧ (∀ r ∈ db.sentences.map Sentence.id, r ∈ (applyOp op db).sentences.map Sentence.id)
    ∧ (∀ r ∈ db.annots.map Annot.id, r ∈ (applyOp op db).annots.map Annot.id)
    ∧ (∀ r ∈ db.evaluations.map Evaluation.id, r ∈ (applyOp op db).evaluations.map Evaluation.id) := by
  cases op with
  | opRegister i =>
    rcases hf : db.users.find?
        (fun u => u.email == i.email || u.username == i.username) with _ | x
    · by_cases hl : i.languages.length > 0
      · simp only [applyOp, register, hf, hl, if_true, OpResult.final_pair]
        exact ⟨map_mem_append _ _ _, fun r hr => hr, fun r hr => hr, fun r hr => hr⟩
      · by_cases hp : pyTruthyStr i.preferred_language
        · simp only [applyOp, register, hf, hl, if_false, hp, if_true, OpResult.final_pair]
          exact ⟨map_mem_append _ _ _, fun r hr => hr, fun r hr => hr, fun r hr => hr⟩
        · simp only [applyOp, register, hf, hl, if_false, hp, OpResult.final_single]
          exact ⟨map_mem_append _ _ _, fun r hr => hr, fun r hr => hr, fun r hr => hr⟩
    · simp only [applyOp, register, hf]
      exact ⟨fun r hr => hr, fun r hr => hr, fun r hr => hr, fun r hr => hr⟩
  | opMarkGuidelinesSeen u =>
    simp only [applyOp, mark_guidelines_seen, OpResult.final_single]
    refine ⟨mem_map_updFirst _ _ _ ?_ _,
      fun r hr => hr, fun r hr => hr, fun r hr => hr⟩
    exact fun a _ => rfl
  | opCreateSentence d =>
    simp only [applyOp, create_sentence, OpResult.final_single]
    exact ⟨fun r hr => hr, map_mem_append _ _ _, fun r hr => hr, fun r hr => hr⟩
  | opBulkCreateSentences d =>
    simp only [applyOp, bulk_create_sentences, OpResult.final_single]
    exact ⟨fun r hr => hr, map_mem_append _ _ _, fun r hr => hr, fun r hr => hr⟩
  | opCreateAnnot u d =>
    rcases hf : db.annots.find?
        (fun a => a.sentence_id == d.sentence_id && a.annotator_id == u.id) with _ | x
    · simp only [applyOp, createAnnot, hf, OpResult.final_single]
      exact ⟨fun r hr => hr, fun r hr => hr, map_mem_append _ _ _, fun r hr => hr⟩
    · simp only [applyOp, createAnnot, hf]
      exact ⟨fun r hr => hr, fun r hr => hr, fun r hr => hr, fun r hr => hr⟩
  | opCreateLegacyAnnot u d =>
    rcases hf : db.annots.find?
        (fun a => a.sentence_id == d.sentence_id && a.annotator_id == u.id) with _ | x
    · simp only [applyOp, createLegacyAnnot, hf, OpResult.final_single]
      exact ⟨fun r hr => hr, fun r hr => hr, map_mem_append _ _ _, fun r hr => hr⟩
    · simp only [applyOp, createLegacyAnnot, hf]
      exact ⟨fun r hr => hr, fun r hr => hr, fun r hr => hr, fun r hr => hr⟩
  | opUpdateAnnot aid d u =>
    rcases hf : db.annots.find?
        (fun a => a.id == aid && a.annotator_id == u.id) with _ | x
    · simp only [applyOp, updateAnnot, hf]
      exact ⟨fun r hr => hr, fun r hr => hr, fun r hr => hr, fun r hr => hr⟩
    · rcases hhl : d.highlights with _ | hs
      · simp only [applyOp, updateAnnot, hf, hhl, OpResult.final_single]
        refine ⟨fun r hr => hr, fun r hr => hr,
          mem_map_updFirst _ _ _ ?_ _, fun r hr => hr⟩
        exact fun a _ => rfl
      · simp only [applyOp, updateAnnot, hf, hhl, OpResult.final_single]
        refine ⟨fun r hr => hr, fun r hr => hr,
          mem_map_updFirst _ _ _ ?_ _, fun r hr => hr⟩
        exact fun a _ => rfl
  | opToggleEvaluator uid =>
    rcases hf : db.users.find? (fun u => u.id == uid) with _ | x
    · simp only [applyOp, toggle_user_evaluator_role, hf]
      exact ⟨fun r hr => hr, fun r hr => hr, fun r hr => hr, fun r hr => hr⟩
    · simp only [applyOp, toggle_user_evaluator_role, hf, OpResult.final_single]
      refine ⟨mem_map_updFirst _ _ _ ?_ _,
        fun r hr => hr, fun r hr => hr, fun r hr => hr⟩
      exact fun a _ => rfl
  | opCreateEvaluation u d =>
    rcases hf : db.evaluations.find?
        (fun e => e.annotation_id == d.annotation_id && e.evaluator_id == u.id) with _ | x
    · rcases hf2 : db.annots.find? (fun a => a.id == d.annotation_id) with _ | a0
      · simp only [applyOp, create_evaluation, hf, hf2, OpResult.final_single]
        exact ⟨fun r hr => hr, fun r hr => hr, fun r hr => hr, map_mem_append _ _ _⟩
      · simp only [applyOp, create_evaluation, hf, hf2, OpResult.final_pair]
        refine ⟨fun r hr => hr, fun r hr => hr,
          mem_map_updFirst _ _ _ ?_ _, map_mem_append _ _ _⟩
        exact fun a _ => rfl
    · simp only [applyOp, create_evaluation, hf]
      exact ⟨fun r hr => hr, fun r hr => hr, fun r hr => hr, fun r hr => hr⟩
  | opUpdateEvaluation eid d u =>
    rcases hf : db.evaluations.find?
        (fun e => e.id == eid && e.evaluator_id == u.id) with _ | x
    · simp only [applyOp, update_evaluation, hf]
      exact ⟨fun r hr => hr, fun r hr => hr, fun r hr => hr, fun r hr => hr⟩
    · simp only [applyOp, update_evaluation, hf, OpResult.final_single]
      refine ⟨fun r hr => hr, fun r hr => hr, fun r hr => hr,
        mem_map_updFirst _ _ _ ?_ _⟩
      exact fun a _ => rfl
  | opUpdateUserLanguages ls u =>
    rcases hls : ls with _ | ⟨l, rest⟩
    · simp only [applyOp, update_user_languages, OpResult.final_single]
      exact ⟨fun r hr => hr, fun r hr => hr, fun r hr => hr, fun r hr => hr⟩
    · simp only [applyOp, update_user_languages, OpResult.final_single]
      refine ⟨mem_map_updFirst _ _ _ ?_ _,
        fun r hr => hr, fun r hr => hr, fun r hr => hr⟩
      exact fun a _ => rfl

/-! ## Pending evaluations -/

/-- The matching condition of `get_pending_evaluations`, as a
proposition: status `"completed"` and not yet evaluated by the caller. -/
def PendingMatches (db : DB) (u : User) (a : Annot) : Prop :=
  a.annotation_status = "completed"
    ∧ ∀ e ∈ db.evaluations, ¬(e.evaluator_id = u.id ∧ e.annotation_id = a.id)

instance (db : DB) (u : User) (a : Annot) : Decidable (PendingMatches db u a) := by
  unfold PendingMatches
  infer_instance

lemma hasEvaluationBy_iff (db : DB) (aid uid : Nat) :
    hasEvaluationBy db aid uid = true
      ↔ ∃ e ∈ db.evaluations, e.annotation_id = aid ∧ e.evaluator_id = uid := by
  simp [hasEvaluationBy, List.find?_isSome]

lemma pendingFilter_iff (db : DB) (u : User) (a : Annot) :
    pendingFilter db u a = true ↔ PendingMatches db u a := by
  simp only [pendingFilter, PendingMatches, Bool.and_eq_true, Bool.not_eq_true',
    beq_iff_eq, ← Bool.not_eq_true (hasEvaluationBy db a.id u.id), hasEvaluationBy_iff]
  constructor
  · rintro ⟨h1, h2⟩
    exact ⟨h1, fun e he hc => h2 ⟨e, he, hc.2, hc.1⟩⟩
  · rintro ⟨h1, h2⟩
    refine ⟨h1, fun hc => ?_⟩
    obtain ⟨e, he, hc1, hc2⟩ := hc
    exact h2 e he ⟨hc2, hc1⟩

/-- C7: `get_pending_evaluations` returns exactly the completed
annotations not yet evaluated by the caller, in stored order, paginated
by OFFSET `skip` and LIMIT `limit`; in particular every returned
annotation is stored, is `"completed"`, and carries no evaluation by the
caller. -/
theorem get_pending_evaluations_correct (db : DB) (u : User) (skip limit : Nat) :
    get_pending_evaluations db u skip limit
        = (((db.annots.filter (fun a => decide (PendingMatches db u a))).drop skip).take limit)
    ∧ ∀ a ∈ get_pending_evaluations db u skip limit,
        a ∈ db.annots ∧ a.annotation_status = "completed"
          ∧ ∀ e ∈ db.evaluations, ¬(e.evaluator_id = u.id ∧ e.annotation_id = a.id) := by
  have hfe : db.annots.filter (pendingFilter db u)
      = db.annots.filter (fun a => decide (PendingMatches db u a)) := by
    apply List.filter_congr
    intro a _
    by_cases hP : PendingMatches db u a
    · rw [decide_eq_true hP]
      exact (pendingFilter_iff db u a).mpr hP
    · rw [decide_eq_false hP]
      cases hb : pendingFilter db u a
      · rfl
      · exact absurd ((pendingFilter_iff db u a).mp hb) hP
  constructor
  · rw [get_pending_evaluations, hfe]
  · intro a ha
    rw [get_pending_evaluations] at ha
    have ha2 : a ∈ db.annots.filter (pendingFilter db u) :=
      (List.drop_sublist _ _).subset ((List.take_sublist _ _).subset ha)
    have hmem := List.mem_filter.mp ha2
    have hP := (pendingFilter_iff db u a).mp hmem.2
    exact ⟨hmem.1, hP.1, hP.2⟩

/-! ## Registration's preferred-language default -/

/-- C8: when the registration payload omits `preferred_language`, the
created user's preferred language is the first submitted language, or
`"tagalog"` when no language was submitted; the created user is stored. -/
theorem register_default_preferred_language (db : DB) (i : UserCreate)
    (hnone : i.preferred_language = none) :
    ∀ v, (register i db).res = .ok v →
      v ∈ ((register i db).final db).users
        ∧ v.preferred_language = (match i.languages with
            | l :: _ => l
            | [] => "tagalog") := by
  intro v hok
  have hp0 : pyTruthyStr i.preferred_language = false := by
    rw [hnone]
    rfl
  have hp1 : ¬ (pyTruthyStr i.preferred_language = true) := by
    rw [hp0]
    exact Bool.false_ne_true
  rcases hf : db.users.find?
      (fun x => x.email == i.email || x.username == i.username) with _ | x
  · by_cases hl : i.languages.length > 0
    · simp only [register, hf] at hok
      rw [if_pos hl] at hok
      have hv := Except.ok.inj hok
      constructor
      · simp only [register, hf]
        rw [if_pos hl, OpResult.final_pair, ← hv]
        exact List.mem_append_right _ (List.mem_singleton_self _)
      · rw [← hv]
        simp [hp0]
    · simp only [register, hf] at hok
      rw [if_neg hl, if_neg hp1] at hok
      have hv := Except.ok.inj hok
      constructor
      · simp only [register, hf]
        rw [if_neg hl, if_neg hp1, OpResult.final_single, ← hv]
        exact List.mem_append_right _ (List.mem_singleton_self _)
      · rw [← hv]
        simp [hp0]
  · simp [register, hf] at hok

/-- Witness for C8: registering with no `preferred_language` and
languages ["fr", "en"] stores the user with preferred language "fr". -/
theorem register_default_preferred_language_witness :
    (wRegPayload.preferred_language = none
        ∧ (register wRegPayload wDB3).res = .ok wRegUser)
      ∧ (wRegUser ∈ ((register wRegPayload wDB3).final wDB3).users
          ∧ wRegUser.preferred_language = (match wRegPayload.languages with
              | l :: _ => l
              | [] => "tagalog")) :=
  ⟨⟨rfl, rfl⟩,
    register_default_preferred_language wDB3 wRegPayload rfl wRegUser rfl⟩

/-! ## Toggling the evaluator role -/

lemma find?_eq_append {α : Type} (p : α → Bool) :
    ∀ (l1 : List α) (a : α) (l2 : List α), (∀ y ∈ l1, p y = false) → p a = true →
      (l1 ++ a :: l2).find? p = some a
  | [], a, l2, _, hpa => by
    rw [List.nil_append, List.find?_cons_of_pos _ hpa]
  | y :: ys, a, l2, hy, hpa => by
    rw [List.cons_append,
      List.find?_cons_of_neg _ (by simp [hy y (List.mem_cons_self y ys)]),
      find?_eq_append p ys a l2 (fun z hz => hy z (List.mem_cons_of_mem y hz)) hpa]

lemma updFirst_eq_append {α : Type} (p : α → Bool) (f : α → α) :
    ∀ (l1 : List α) (a : α) (l2 : List α), (∀ y ∈ l1, p y = false) → p a = true →
      updFirst p f (l1 ++ a :: l2) = l1 ++ f a :: l2
  | [], a, l2, _, hpa => by
    rw [List.nil_append, List.nil_append, updFirst, if_pos hpa]
  | y :: ys, a, l2, hy, hpa => by
    rw [List.cons_append, updFirst,
      if_neg (by simp [hy y (List.mem_cons_self y ys)]),
      updFirst_eq_append p f ys a l2 (fun z hz => hy z (List.mem_cons_of_mem y hz)) hpa,
      List.cons_append]

/-- C9: for an existing user (given by the first position in the table
holding its id), `toggle_user_evaluator_role` negates exactly that user's
`is_evaluator` flag — every other user row, every other field and every
other table are unchanged — and applying it twice restores the original
database. -/
theorem toggle_evaluator_involution (db : DB) (uid : Nat) (l1 l2 : List User)
    (u0 : User) (hdecomp : db.users = l1 ++ u0 :: l2) (hu0 : u0.id = uid)
    (hl1 : ∀ y ∈ l1, y.id ≠ uid) :
    (toggle_user_evaluator_role uid db).final db
        = { db with users := l1 ++ { u0 with is_evaluator := !u0.is_evaluator } :: l2 }
    ∧ (toggle_user_evaluator_role uid
          ((toggle_user_evaluator_role uid db).final db)).final
          ((toggle_user_evaluator_role uid db).final db) = db := by
  have hp1 : ∀ y ∈ l1, (fun u => u.id == uid) y = false := by
    intro y hy
    simp [hl1 y hy]
  have hpa : (fun u => u.id == uid) u0 = true := by
    simp [hu0]
  have hf : db.users.find? (fun u => u.id == uid) = some u0 := by
    rw [hdecomp]
    exact find?_eq_append _ l1 u0 l2 hp1 hpa
  have hfin1 : (toggle_user_evaluator_role uid db).final db
      = { db with users := l1 ++ { u0 with is_evaluator := !u0.is_evaluator } :: l2 } := by
    simp only [toggle_user_evaluator_role, hf, OpResult.final_single]
    rw [hdecomp, updFirst_eq_append _ _ l1 u0 l2 hp1 hpa]
  refine ⟨hfin1, ?_⟩
  rw [hfin1]
  have hpa2 : (fun u => u.id == uid) { u0 with is_evaluator := !u0.is_evaluator } = true := by
    simp [hu0]
  have hf2 : (({ db with users := l1 ++ { u0 with is_evaluator := !u0.is_evaluator } :: l2 } : DB).users).find?
      (fun u => u.id == uid) = some { u0 with is_evaluator := !u0.is_evaluator } :=
    find?_eq_append _ l1 _ l2 hp1 hpa2
  simp only [toggle_user_evaluator_role, hf2, OpResult.final_single]
  rw [updFirst_eq_append _ _ l1 _ l2 hp1 hpa2]
  simp only [Bool.not_not]
  rw [← hdecomp]

/-- Witness for C9: toggling user 1 twice in the sample database
restores it exactly. -/
theorem toggle_evaluator_involution_witness :
    (wDB.users = [] ++ wUser :: [] ∧ wUser.id = 1 ∧ ∀ y ∈ ([] : List User), y.id ≠ 1)
      ∧ (toggle_user_evaluator_role 1
            ((toggle_user_evaluator_role 1 wDB).final wDB)).final
            ((toggle_user_evaluator_role 1 wDB).final wDB) = wDB :=
  ⟨⟨rfl, rfl, by decide⟩,
    (toggle_evaluator_involution wDB 1 [] [] wUser rfl rfl (by decide)).2⟩

/-! ## Evaluator statistics -/

/-- The `evaluations_with_time` query of `get_evaluator_stats`: the
caller's evaluations whose `time_spent_seconds` is non-null. -/
def evaluations_with_time (db : DB) (current_user : User) : List Evaluation :=
  (db.evaluations.filter (fun e => e.evaluator_id == current_user.id)).filter
    (fun e => e.time_spent_seconds.isSome)

lemma get_evaluator_stats_avg_eq (db : DB) (u : User) :
    (get_evaluator_stats db u).average_time_per_evaluation
      = if (evaluations_with_time db u).length > 0
        then (((evaluations_with_time db u).map (fun e => e.time_spent_seconds.getD 0)).sum : Rat)
              / ((evaluations_with_time db u).length : Rat)
        else 0 := rfl

/-- C10: `get_evaluator_stats` returns as average exactly the arithmetic
mean of `time_spent_seconds` over the caller's evaluations having a
non-null time, and exactly 0 when there is no such evaluation; the
division is only taken with a positive denominator. -/
theorem evaluator_stats_average_correct (db : DB) (u : User) :
    ((evaluations_with_time db u) = [] →
        (get_evaluator_stats db u).average_time_per_evaluation = 0)
    ∧ ((evaluations_with_time db u) ≠ [] →
        0 < (evaluations_with_time db u).length
        ∧ (get_evaluator_stats db u).average_time_per_evaluation
            = (((evaluations_with_time db u).map (fun e => e.time_spent_seconds.getD 0)).sum : Rat)
              / ((evaluations_with_time db u).length : Rat)
        ∧ (get_evaluator_stats db u).average_time_per_evaluation
              * ((evaluations_with_time db u).length : Rat)
            = (((evaluations_with_time db u).map (fun e => e.time_spent_seconds.getD 0)).sum : Rat)) := by
  constructor
  · intro h
    have hlen : (evaluations_with_time db u).length = 0 := by
      rw [h]
      rfl
    rw [get_evaluator_stats_avg_eq, hlen, if_neg (lt_irrefl 0)]
  · intro h
    have hpos : 0 < (evaluations_with_time db u).length := List.length_pos.mpr h
    have hne : ((evaluations_with_time db u).length : Rat) ≠ 0 :=
      Nat.cast_ne_zero.mpr (Nat.pos_iff_ne_zero.mp hpos)
    refine ⟨hpos, ?_, ?_⟩
    · rw [get_evaluator_stats_avg_eq, if_pos hpos]
    · rw [get_evaluator_stats_avg_eq, if_pos hpos, div_mul_cancel₀ _ hne]

/-- The sample database extended with one evaluation (45 seconds). -/
def wDB4 : DB := { wDB with evaluations := [wEvalRow], next_evaluation_id := 2 }

/-- Witness for C10: with a single timed evaluation the non-null filter
is non-empty and the mean facts follow from the theorem. -/
theorem evaluator_stats_average_correct_witness :
    (evaluations_with_time wDB4 wUser ≠ [])
      ∧ (0 < (evaluations_with_time wDB4 wUser).length
         ∧ (get_evaluator_stats wDB4 wUser).average_time_per_evaluation
             = (((evaluations_with_time wDB4 wUser).map (fun e => e.time_spent_seconds.getD 0)).sum : Rat)
               / ((evaluations_with_time wDB4 wUser).length : Rat)
         ∧ (get_evaluator_stats wDB4 wUser).average_time_per_evaluation
               * ((evaluations_with_time wDB4 wUser).length : Rat)
             = (((evaluations_with_time wDB4 wUser).map (fun e => e.time_spent_seconds.getD 0)).sum : Rat)) :=
  ⟨by decide, (evaluator_stats_average_correct wDB4 wUser).2 (by decide)⟩
